import Mathlib

/-!
Shallow embedding of the PetOne locations backend (`src/server.js`).

The server keeps, per tenant, a list of location records and a list of
device registrations, all read from and written back to a single JSON
file.  Record fields are untyped JavaScript values coming from JSON, so
they are modelled by the small value type `JsVal` below; an absent object
key is represented by `JsVal.undefined` (JSON round-trips make an absent key
and a key holding `undefined` indistinguishable, and the payloads the
handlers receive come from `JSON.parse`, which never produces `undefined`
values).  JavaScript numbers are modelled by integers: none of the
verified properties depends on fractional arithmetic, only on which value
flows where.

Nondeterministic inputs of the handlers are passed as parameters:
`now` stands for `new Date().toISOString()`, `gid` for `genId()`, and
`uid` for the tenant identifier resolved by `requireAuth`.

The persistence layer (`readData` / `getTenant` acting on raw parsed
JSON) is embedded separately at the end on a `Json` type that also
represents JavaScript arrays carrying named properties, which the
original mutating code can create.
-/

namespace PetOne

/-- JavaScript primitive values as they occur in record fields.
`undefined` doubles as "key absent"; `nan` is the result of failed numeric
coercion.  Numbers are restricted to integer values. -/
inductive JsVal where
  | undefined
  | null
  | bool (b : Bool)
  | num (n : Int)
  | str (s : String)
  | nan
deriving DecidableEq, Inhabited

/-- JavaScript truthiness of a primitive value: `undefined`, `null`,
`false`, `0`, `""` and `NaN` are falsy, everything else truthy. -/
def truthy : JsVal → Bool
  | .undefined => false
  | .null => false
  | .bool b => b
  | .num n => decide (n ≠ 0)
  | .str s => decide (s ≠ "")
  | .nan => false

/-- JavaScript strict equality `===` on primitives; `NaN` is not equal
to anything, including itself. -/
def jsEq : JsVal → JsVal → Bool
  | .nan, _ => false
  | _, .nan => false
  | a, b => decide (a = b)

/-- JavaScript `String(v)` on a primitive value. -/
def jsToString : JsVal → String
  | .undefined => "undefined"
  | .null => "null"
  | .bool b => if b then "true" else "false"
  | .num n => toString n
  | .str s => s
  | .nan => "NaN"

/-- `Number(s)` on a string, restricted to integer numerals: blank
strings coerce to `0`, integer literals parse, everything else is `NaN`
(fractional and hexadecimal literals are outside the embedded value
space). -/
def jsStrToNum (s : String) : JsVal :=
  let t := s.trim
  if t = "" then .num 0
  else
    match t.toInt? with
    | some n => .num n
    | none => .nan

/-- JavaScript `Number(v)` coercion on a primitive value. -/
def jsNumber : JsVal → JsVal
  | .undefined => .nan
  | .null => .num 0
  | .bool b => .num (if b then 1 else 0)
  | .num n => .num n
  | .str s => jsStrToNum s
  | .nan => .nan

/-- JavaScript `a || b` on primitive values: `a` if truthy, else `b`. -/
def jsOr (a b : JsVal) : JsVal :=
  if truthy a then a else b

/-- One key of an object spread `\x7b ...old, ...new \x7d` coming from
JSON-sourced objects: a key present in `new` (anything other than
`undefined`) overrides, an absent key keeps the old value. -/
def mergeVal (old new : JsVal) : JsVal :=
  if new = .undefined then old else new

/-- A location record (`POST /localizacao` payloads and stored
records share this shape; absent fields are `undefined`). -/
structure Location where
  id : JsVal
  petId : JsVal
  label : JsVal
  latitude : JsVal
  longitude : JsVal
  accuracy : JsVal
  speed : JsVal
  origin : JsVal
  createdBy : JsVal
  createdAt : JsVal
  updatedAt : JsVal
  uid : JsVal
deriving DecidableEq, Inhabited

/-- The spread `\x7b ...existing, ...loc \x7d` of two JSON-sourced
location objects, field by field. -/
def mergeLocation (old p : Location) : Location where
  id := mergeVal old.id p.id
  petId := mergeVal old.petId p.petId
  label := mergeVal old.label p.label
  latitude := mergeVal old.latitude p.latitude
  longitude := mergeVal old.longitude p.longitude
  accuracy := mergeVal old.accuracy p.accuracy
  speed := mergeVal old.speed p.speed
  origin := mergeVal old.origin p.origin
  createdBy := mergeVal old.createdBy p.createdBy
  createdAt := mergeVal old.createdAt p.createdAt
  updatedAt := mergeVal old.updatedAt p.updatedAt
  uid := mergeVal old.uid p.uid

/-- `Array.prototype.findIndex`: index of the first element satisfying
the predicate. -/
def findIdx' (p : α → Bool) : List α → Option Nat
  | [] => none
  | a :: as => if p a then some 0 else (findIdx' p as).map Nat.succ

/-- Outcome of the location upsert: HTTP 201 (`created`) versus HTTP 200
(`updated`). -/
inductive UpsertStatus where
  | created
  | updated
deriving DecidableEq

/-- `POST /localizacao` (server.js lines 208-228): force `id` (generated
when falsy) and `uid`, then either merge over the first location with the
same `id` (refreshing `updatedAt`) or append a new record (defaulting
`createdAt` to `now`). -/
def upsertLocation (locs : List Location) (payload : Location)
    (uid now gid : String) : List Location × Location × UpsertStatus :=
  let loc := { payload with
                 id := if truthy payload.id then payload.id else .str gid
                 uid := .str uid }
  match findIdx' (fun l => jsEq l.id loc.id) locs with
  | some idx =>
    let merged := { mergeLocation (locs.getD idx default) loc with updatedAt := .str now }
    (locs.set idx merged, merged, .updated)
  | none =>
    let created := if truthy loc.createdAt then loc else { loc with createdAt := .str now }
    (locs ++ [created], created, .created)

/-- `DELETE /localizacao?petId=...` (server.js lines 323-334): the query
parameter is `none` when absent; a truthy (non-empty) value keeps only
the locations whose `petId` does not string-compare equal to it, a falsy
one clears the whole list; the count of removed records is returned. -/
def deleteByScope (locs : List Location) (petId : Option String) :
    List Location × Nat :=
  let kept : List Location :=
    match petId with
    | some s => if s = "" then [] else locs.filter (fun l => !(jsToString l.petId == s))
    | none => []
  (kept, locs.length - kept.length)

/-- A device registration record (absent fields are `undefined`). -/
structure Device where
  petId : JsVal
  code : JsVal
  deviceId : JsVal
  name : JsVal
  createdAt : JsVal
  updatedAt : JsVal
deriving DecidableEq, Inhabited

/-- The payload of `POST /devices/register` (absent fields `undefined`). -/
structure DevicePayload where
  petId : JsVal
  code : JsVal
  deviceId : JsVal
  name : JsVal
deriving DecidableEq, Inhabited

/-- The match predicate shared by `upsertDevice`, `resolvePetIdByIdentifier`
and the detach / delete handlers:
`(code && d.code === code) || (deviceId && d.deviceId === deviceId)`. -/
def devMatch (code deviceId : JsVal) (d : Device) : Bool :=
  (truthy code && jsEq d.code code) || (truthy deviceId && jsEq d.deviceId deviceId)

/-- `upsertDevice` (server.js lines 142-160).  The freshly built `dev`
object carries the keys `petId`, `code`, `deviceId`, `name`, `updatedAt`
(possibly holding `undefined`) but not `createdAt`, so on a match the
spread `\x7b ...existing, ...dev \x7d` overwrites every field except
`createdAt`.  On a miss the record is appended with `createdAt` set to
`now`, but the function returns `dev` itself, which has no `createdAt`. -/
def upsertDevice (devices : List Device) (payload : DevicePayload)
    (now : String) : List Device × Device :=
  let dev : Device :=
    { petId := payload.petId, code := payload.code, deviceId := payload.deviceId
      name := payload.name, createdAt := .undefined, updatedAt := .str now }
  match findIdx' (devMatch dev.code dev.deviceId) devices with
  | some idx =>
    let merged : Device := { dev with createdAt := (devices.getD idx default).createdAt }
    (devices.set idx merged, merged)
  | none =>
    (devices ++ [{ dev with createdAt := .str now }], dev)

/-- Error outcomes of the handlers: HTTP 400 (`validation`), HTTP 404
(`notFound`), and the uncaught `RangeError` of
`new Date(NaN).toISOString()` (`invalidDate`, surfaced as HTTP 400 by the
outer catch). -/
inductive ApiErr where
  | validation
  | notFound
  | invalidDate
deriving DecidableEq

/-- `POST /devices/register` (server.js lines 257-263): requires a truthy
`petId` and a truthy `code` or `deviceId`, then delegates to
`upsertDevice`. -/
def registerDevice (devices : List Device) (payload : DevicePayload)
    (now : String) : Except ApiErr (List Device × Device) :=
  if ¬ truthy payload.petId then .error .validation
  else if ¬ truthy payload.code ∧ ¬ truthy payload.deviceId then .error .validation
  else .ok (upsertDevice devices payload now)

/-- `resolvePetIdByIdentifier` (server.js lines 162-167): `petId` of the
first device matching the supplied `code` or `deviceId`; `found?.petId`
is `undefined` when nothing matches. -/
def resolvePetIdByIdentifier (devices : List Device) (code deviceId : JsVal) : JsVal :=
  match devices.find? (devMatch code deviceId) with
  | some d => d.petId
  | none => .undefined

/-- `POST /devices/detach` (server.js lines 272-285): locate the first
matching device, null out its `petId` and refresh `updatedAt`. -/
def detachDevice (devices : List Device) (code deviceId : JsVal)
    (now : String) : Except ApiErr (List Device × Device) :=
  if ¬ truthy code ∧ ¬ truthy deviceId then .error .validation
  else
    match findIdx' (devMatch code deviceId) devices with
    | none => .error .notFound
    | some idx =>
      let d := { devices.getD idx default with petId := .null, updatedAt := .str now }
      .ok (devices.set idx d, d)

/-- The per-tenant state: its locations and its devices. -/
structure TenantT where
  locations : List Location
  devices : List Device
deriving DecidableEq, Inhabited

/-- The payload of `POST /locations/ingest` (absent fields `undefined`). -/
structure IngestPayload where
  code : JsVal
  deviceId : JsVal
  lat : JsVal
  lng : JsVal
  accuracy : JsVal
  speed : JsVal
  timestamp : JsVal
  label : JsVal
deriving DecidableEq, Inhabited

/-- Stand-in for `new Date(n).toISOString()` on an epoch-millisecond
integer; the verified properties depend only on which number feeds it,
not on the concrete calendar rendering. -/
def epochToIso (n : Int) : String :=
  "epoch-ms:" ++ toString n

/-- The `createdAt` of an ingested location:
`timestamp ? new Date(Number(timestamp)).toISOString() : nowIso`, where a
truthy timestamp coercing to `NaN` makes `toISOString` throw. -/
def ingestCreatedAt (timestamp : JsVal) (now : String) : Option String :=
  if truthy timestamp then
    match jsNumber timestamp with
    | .num n => some (epochToIso n)
    | _ => none
  else some now

/-- `POST /locations/ingest` (server.js lines 231-253).  On any failure
the handler returns before touching the tenant, so the unchanged tenant
is returned alongside the error. -/
def ingest (t : TenantT) (payload : IngestPayload) (uid now gid : String) :
    TenantT × Except ApiErr Location :=
  if ¬ truthy payload.code ∧ ¬ truthy payload.deviceId then (t, .error .validation)
  else
    let petId := resolvePetIdByIdentifier t.devices payload.code payload.deviceId
    if ¬ truthy petId then (t, .error .notFound)
    else
      match ingestCreatedAt payload.timestamp now with
      | none => (t, .error .invalidDate)
      | some createdAt =>
        let loc : Location :=
          { id := .str gid
            petId := petId
            label := jsOr payload.label (.str "device")
            latitude := jsNumber payload.lat
            longitude := jsNumber payload.lng
            accuracy := if payload.accuracy ≠ .null ∧ payload.accuracy ≠ .undefined
                        then jsNumber payload.accuracy else .undefined
            speed := if payload.speed ≠ .null ∧ payload.speed ≠ .undefined
                     then jsNumber payload.speed else .undefined
            origin := .str "device"
            createdBy := jsOr payload.deviceId (jsOr payload.code (.str "unknown"))
            createdAt := .str createdAt
            updatedAt := .undefined
            uid := .str uid }
        ({ t with locations := t.locations ++ [loc] }, .ok loc)

/-- The in-memory multi-tenant store: `data.tenants` as an association
list from tenant identifier to tenant state (JSON objects have unique
keys). -/
def Store := List (String × TenantT)

/-- JavaScript property read `data.tenants[uid]`. -/
def storeGet : Store → String → Option TenantT
  | [], _ => none
  | (k, v) :: rest, uid => if k = uid then some v else storeGet rest uid

/-- JavaScript property write `data.tenants[uid] = t`: update the first
binding of the key, or append a fresh one. -/
def storeSet : Store → String → TenantT → Store
  | [], uid, t => [(uid, t)]
  | (k, v) :: rest, uid, t =>
    if k = uid then (uid, t) :: rest else (k, v) :: storeSet rest uid t

/-- `getTenant` (server.js lines 135-140) on the typed store: create the
entry when missing.  (The normalisation of non-array `locations` /
`devices` lives at the raw-JSON level, in `getTenantJson` below.) -/
def getTenantTyped (s : Store) (uid : String) : Store × TenantT :=
  match storeGet s uid with
  | some t => (s, t)
  | none => (storeSet s uid ⟨[], []⟩, ⟨[], []⟩)

/-- The shape every mutating handler has: resolve the caller's tenant,
run a tenant-local mutation, write the mutated tenant back.  (In the
source the handler mutates the tenant object in place and `writeData`
persists the whole store; functionally that is a write-back of the
caller's entry.) -/
def applyTenantOp (s : Store) (uid : String) (f : TenantT → TenantT × α) :
    Store × α :=
  let st := getTenantTyped s uid
  let r := f st.2
  (storeSet st.1 uid r.1, r.2)

/-- The full `POST /localizacao` request under a resolved tenant. -/
def storeUpsertLocation (s : Store) (uid : String) (payload : Location)
    (now gid : String) : Store × Location × UpsertStatus :=
  applyTenantOp s uid (fun t =>
    let r := upsertLocation t.locations payload uid now gid
    ({ t with locations := r.1 }, r.2))

/-- The full `POST /locations/ingest` request under a resolved tenant. -/
def storeIngest (s : Store) (uid : String) (payload : IngestPayload)
    (now gid : String) : Store × Except ApiErr Location :=
  applyTenantOp s uid (fun t => ingest t payload uid now gid)

/-- Parsed JSON as the persistence layer sees it.  A JavaScript array can
also carry named properties (the original code assigns named fields on
whatever it finds in the durable file), so `arr` holds both its elements
and its named properties.  Objects produced by `JSON.parse` have unique
keys; property access takes the first binding. -/
inductive Json where
  | null
  | bool (b : Bool)
  | num (n : Int)
  | str (s : String)
  | arr (elems : List Json) (props : List (String × Json))
  | obj (props : List (String × Json))

/-- JavaScript truthiness of a parsed JSON value (every object and array
is truthy, even when empty). -/
def jsonTruthy : Json → Bool
  | .null => false
  | .bool b => b
  | .num n => decide (n ≠ 0)
  | .str s => decide (s ≠ "")
  | .arr _ _ => true
  | .obj _ => true

/-- `typeof v === 'object'` (true for objects, arrays and `null`). -/
def isObjLike : Json → Bool
  | .null => true
  | .arr _ _ => true
  | .obj _ => true
  | _ => false

/-- First binding of a key in a property list. -/
def propsGet : List (String × Json) → String → Option Json
  | [], _ => none
  | (k, v) :: rest, key => if k = key then some v else propsGet rest key

/-- Update the first binding of a key, or append a fresh one. -/
def propsSet : List (String × Json) → String → Json → List (String × Json)
  | [], key, v => [(key, v)]
  | (k, w) :: rest, key, v =>
    if k = key then (key, v) :: rest else (k, w) :: propsSet rest key v

/-- JavaScript property read `j[key]` (`none` is `undefined`; reading a
named property of a primitive yields `undefined`). -/
def getField : Json → String → Option Json
  | .obj ps, key => propsGet ps key
  | .arr _ ps, key => propsGet ps key
  | _, _ => none

/-- JavaScript property write `j[key] = v`: effective on objects and
arrays; silently ignored on primitives (the module is not in strict
mode). -/
def setField : Json → String → Json → Json
  | .obj ps, key, v => .obj (propsSet ps key v)
  | .arr es ps, key, v => .arr es (propsSet ps key v)
  | j, _, _ => j

/-- `Array.isArray(j[key])`. -/
def isArrayOpt : Option Json → Bool
  | some (.arr _ _) => true
  | _ => false

/-- Truthiness of a possibly-undefined property value. -/
def jsonTruthyOpt : Option Json → Bool
  | some v => jsonTruthy v
  | none => false

/-- `typeof j[key] === 'object'` for a possibly-undefined property. -/
def isObjLikeOpt : Option Json → Bool
  | some v => isObjLike v
  | none => false

/-- The empty store `\x7b tenants: \x7b\x7d \x7d`. -/
def emptyStoreJson : Json := .obj [("tenants", .obj [])]

/-- `readData` (server.js lines 65-81) applied to the parse result of the
durable file: `none` is a `JSON.parse` failure (corrupted file, reset to
the empty store); a falsy or non-object document also resets; a document
with an array `locations` field is the legacy single-tenant shape and is
migrated on the fly to a sole `"default"` tenant; otherwise a missing or
non-object `tenants` field is replaced by an empty object and the
document is returned as-is.  The function performs no write: the durable
file is only rewritten by `writeData`. -/
def readData : Option Json → Json
  | none => emptyStoreJson
  | some j =>
    if ¬ (jsonTruthy j && isObjLike j) then emptyStoreJson
    else if isArrayOpt (getField j "locations") then
      .obj [("tenants", .obj [("default",
        .obj [("locations", (getField j "locations").getD (.arr [] [])),
              ("devices", .arr [] [])])])]
    else if jsonTruthyOpt (getField j "tenants") && isObjLikeOpt (getField j "tenants")
    then j
    else setField j "tenants" (.obj [])

/-- The tenant entry `getTenant` creates for a fresh tenant identifier. -/
def freshTenantJson : Json := .obj [("locations", .arr [] []), ("devices", .arr [] [])]

/-- Whether `data.tenants` is something whose properties can be read and
written without throwing (a real object or an array). -/
def jsTenantsOk : Json → Bool
  | .obj _ => true
  | .arr _ _ => true
  | _ => false

/-- `getTenant` (server.js lines 135-140) on the raw parsed store:
create the entry when it is falsy or missing, then replace a non-array
`locations` or `devices` property by an empty array (a property write on
a primitive entry is silently ignored).  `none` models the `TypeError`
the code throws when `data.tenants` is missing, `null` or a primitive.
Returns the updated store document together with the tenant entry. -/
def getTenantJson (data : Json) (uid : String) : Option (Json × Json) :=
  match getField data "tenants" with
  | none => none
  | some tmap =>
    if jsTenantsOk tmap then
      let tmap1 := if jsonTruthyOpt (getField tmap uid) then tmap
                   else setField tmap uid freshTenantJson
      match getField tmap1 uid with
      | none => none
      | some entry0 =>
        let entry1 := if isArrayOpt (getField entry0 "locations") then entry0
                      else setField entry0 "locations" (.arr [] [])
        let entry2 := if isArrayOpt (getField entry1 "devices") then entry1
                      else setField entry1 "devices" (.arr [] [])
        some (setField data "tenants" (setField tmap1 uid entry2), entry2)
    else none

/-! ### Helper lemmas about the linear scans -/

theorem findIdx'_lt_length {α : Type} {p : α → Bool} {l : List α} {i : Nat}
    (h : findIdx' p l = some i) : i < l.length := by
  induction l generalizing i with
  | nil => simp [findIdx'] at h
  | cons a as ih =>
    by_cases hpa : p a
    · simp [findIdx', hpa] at h
      simp [← h]
    · simp [findIdx', hpa, Option.map_eq_some'] at h
      obtain ⟨j, hj, rfl⟩ := h
      simpa using ih hj

theorem findIdx'_getD {α : Type} {p : α → Bool} {l : List α} {i : Nat} (d0 : α)
    (h : findIdx' p l = some i) : p (l.getD i d0) = true := by
  induction l generalizing i with
  | nil => simp [findIdx'] at h
  | cons a as ih =>
    by_cases hpa : p a
    · simp [findIdx', hpa] at h
      simp [← h, hpa]
    · simp [findIdx', hpa, Option.map_eq_some'] at h
      obtain ⟨j, hj, rfl⟩ := h
      simpa using ih hj

theorem findIdx'_first {α : Type} {p : α → Bool} {l : List α} {i : Nat} (d0 : α)
    (h : findIdx' p l = some i) (j : Nat) (hj : j < i) : p (l.getD j d0) = false := by
  induction l generalizing i j with
  | nil => simp [findIdx'] at h
  | cons a as ih =>
    by_cases hpa : p a
    · simp [findIdx', hpa] at h
      omega
    · simp [findIdx', hpa, Option.map_eq_some'] at h
      obtain ⟨k, hk, rfl⟩ := h
      cases j with
      | zero => simpa using hpa
      | succ j' =>
        simp only [List.getD_cons_succ]
        exact ih hk j' (by omega)

theorem findIdx'_none {α : Type} {p : α → Bool} {l : List α}
    (h : findIdx' p l = none) : ∀ a ∈ l, p a = false := by
  induction l with
  | nil => intro a ha; simp at ha
  | cons a as ih =>
    by_cases hpa : p a
    · simp [findIdx', hpa] at h
    · simp [findIdx', hpa] at h
      intro b hb
      rcases List.mem_cons.mp hb with rfl | hb'
      · simpa using hpa
      · exact ih h b hb'

theorem findIdx'_eq_some_of {α : Type} {p : α → Bool} {l : List α} {i : Nat} (d0 : α)
    (hi : i < l.length) (h1 : p (l.getD i d0) = true)
    (h2 : ∀ j, j < i → p (l.getD j d0) = false) : findIdx' p l = some i := by
  induction l generalizing i with
  | nil => simp at hi
  | cons a as ih =>
    by_cases hpa : p a
    · cases i with
      | zero => simp [findIdx', hpa]
      | succ i' =>
        have := h2 0 (by omega)
        simp [List.getD_cons_zero] at this
        rw [this] at hpa
        exact absurd hpa (by simp)
    · cases i with
      | zero =>
        simp [List.getD_cons_zero] at h1
        rw [h1] at hpa
        exact absurd hpa (by simp)
      | succ i' =>
        have hrec := ih (i := i') (by simpa using hi)
          (by simpa using h1)
          (fun j hj => by simpa using h2 (j + 1) (by omega))
        simp [findIdx', hpa, hrec]

theorem findIdx'_eq_none_of {α : Type} {p : α → Bool} {l : List α}
    (h : ∀ a ∈ l, p a = false) : findIdx' p l = none := by
  induction l with
  | nil => simp [findIdx']
  | cons a as ih =>
    have hpa := h a (by simp)
    simp [findIdx', hpa]
    exact ih (fun b hb => h b (by simp [hb]))

theorem find?_of_findIdx' {α : Type} {p : α → Bool} {l : List α} {i : Nat} (d0 : α)
    (h : findIdx' p l = some i) : l.find? p = some (l.getD i d0) := by
  induction l generalizing i with
  | nil => simp [findIdx'] at h
  | cons a as ih =>
    by_cases hpa : p a
    · simp [findIdx', hpa] at h
      simp [← h, List.find?_cons_of_pos _ hpa]
    · simp [findIdx', hpa, Option.map_eq_some'] at h
      obtain ⟨j, hj, rfl⟩ := h
      simpa [List.find?_cons_of_neg _ hpa] using ih hj

theorem find?_none_of_findIdx' {α : Type} {p : α → Bool} {l : List α}
    (h : findIdx' p l = none) : l.find? p = none := by
  rw [List.find?_eq_none]
  intro a ha
  simpa using findIdx'_none h a ha

theorem find?_set_of_findIdx' {α : Type} {p : α → Bool} {l : List α} {i : Nat} {x : α}
    (h : findIdx' p l = some i) (hx : p x = true) : (l.set i x).find? p = some x := by
  induction l generalizing i with
  | nil => simp [findIdx'] at h
  | cons a as ih =>
    by_cases hpa : p a
    · simp [findIdx', hpa] at h
      simp [← h, List.find?_cons_of_pos _ hx]
    · simp [findIdx', hpa, Option.map_eq_some'] at h
      obtain ⟨j, hj, rfl⟩ := h
      simpa [List.find?_cons_of_neg _ hpa] using ih hj

theorem findIdx'_set_self {α : Type} {p : α → Bool} {l : List α} {i : Nat} {x : α}
    (h : findIdx' p l = some i) (hx : p x = true) : findIdx' p (l.set i x) = some i := by
  induction l generalizing i with
  | nil => simp [findIdx'] at h
  | cons a as ih =>
    by_cases hpa : p a
    · simp [findIdx', hpa] at h
      simp [← h, findIdx', hx]
    · simp [findIdx', hpa, Option.map_eq_some'] at h
      obtain ⟨j, hj, rfl⟩ := h
      simp [findIdx', hpa, ih hj]

theorem getD_set_self {α : Type} {l : List α} {i : Nat} {x : α} (d0 : α)
    (h : i < l.length) : (l.set i x).getD i d0 = x := by
  induction l generalizing i with
  | nil => simp at h
  | cons a as ih =>
    cases i with
    | zero => simp
    | succ i' =>
      simp only [List.set_cons_succ, List.getD_cons_succ]
      exact ih (by simpa using h)

theorem find?_append_none {α : Type} {p : α → Bool} {l r : List α}
    (h : l.find? p = none) : (l ++ r).find? p = r.find? p := by
  induction l with
  | nil => simp
  | cons a as ih =>
    by_cases hpa : p a
    · rw [List.find?_cons_of_pos _ hpa] at h
      exact absurd h (by simp)
    · rw [List.find?_cons_of_neg _ hpa] at h
      simpa [List.find?_cons_of_neg _ hpa] using ih h

theorem findIdx'_append_singleton {α : Type} {p : α → Bool} {l : List α} {x : α}
    (h : findIdx' p l = none) (hx : p x = true) :
    findIdx' p (l ++ [x]) = some l.length := by
  induction l with
  | nil => simp [findIdx', hx]
  | cons a as ih =>
    by_cases hpa : p a
    · simp [findIdx', hpa] at h
    · simp [findIdx', hpa] at h
      simp [findIdx', hpa, ih h]

theorem mem_of_mem_set {α : Type} {l : List α} {i : Nat} {x y : α}
    (h : x ∈ l.set i y) : x ∈ l ∨ x = y := by
  induction l generalizing i with
  | nil => simp at h
  | cons a as ih =>
    cases i with
    | zero =>
      rcases List.mem_cons.mp h with rfl | h'
      · right; rfl
      · left; simp [h']
    | succ i' =>
      rcases List.mem_cons.mp h with rfl | h'
      · left; simp
      · rcases ih h' with h'' | rfl
        · left; simp [h'']
        · right; rfl

theorem filter_length_split {α : Type} (p : α → Bool) (l : List α) :
    (l.filter p).length + (l.filter (fun a => !(p a))).length = l.length := by
  induction l with
  | nil => simp
  | cons a as ih =>
    by_cases hpa : p a <;> simp [List.filter_cons, hpa, ← ih] <;> omega

theorem storeGet_storeSet_ne {s : Store} {uid b : String} {t : TenantT}
    (h : b ≠ uid) : storeGet (storeSet s uid t) b = storeGet s b := by
  induction s with
  | nil => simp [storeSet, storeGet, Ne.symm h]
  | cons kv rest ih =>
    obtain ⟨k, v⟩ := kv
    by_cases hk : k = uid
    · subst hk
      simp [storeSet, storeGet, Ne.symm h]
    · simp [storeSet, hk, storeGet, ih]

theorem propsGet_propsSet_self (ps : List (String × Json)) (k : String) (v : Json) :
    propsGet (propsSet ps k v) k = some v := by
  induction ps with
  | nil => simp [propsSet, propsGet]
  | cons kw rest ih =>
    obtain ⟨k', w⟩ := kw
    by_cases hk : k' = k
    · subst hk
      simp [propsSet, propsGet]
    · simp [propsSet, hk, propsGet, ih]

theorem propsGet_propsSet_ne {ps : List (String × Json)} {k k' : String} {v : Json}
    (h : k' ≠ k) : propsGet (propsSet ps k v) k' = propsGet ps k' := by
  induction ps with
  | nil => simp [propsSet, propsGet, Ne.symm h]
  | cons kw rest ih =>
    obtain ⟨k0, w⟩ := kw
    by_cases hk : k0 = k
    · subst hk
      simp [propsSet, propsGet, Ne.symm h]
    · simp [propsSet, hk, propsGet, ih]

theorem getField_setField_self {x : Json} {k : String} {v : Json}
    (hobj : isObjLike x = true) (hnn : x ≠ .null) :
    getField (setField x k v) k = some v := by
  cases x with
  | null => exact absurd rfl hnn
  | bool b => simp [isObjLike] at hobj
  | num n => simp [isObjLike] at hobj
  | str s => simp [isObjLike] at hobj
  | arr es ps => simp [setField, getField, propsGet_propsSet_self]
  | obj ps => simp [setField, getField, propsGet_propsSet_self]

theorem getField_setField_ne {x : Json} {k k' : String} {v : Json}
    (h : k' ≠ k) : getField (setField x k v) k' = getField x k' := by
  cases x with
  | arr es ps => simp [setField, getField, propsGet_propsSet_ne h]
  | obj ps => simp [setField, getField, propsGet_propsSet_ne h]
  | null => rfl
  | bool b => rfl
  | num n => rfl
  | str s => rfl

theorem isObjLike_setField (x : Json) (k : String) (v : Json) :
    isObjLike (setField x k v) = isObjLike x := by
  cases x <;> rfl

theorem eq_null_of_setField_eq_null {x : Json} {k : String} {v : Json}
    (h : setField x k v = .null) : x = .null := by
  cases x with
  | null => rfl
  | bool b => exact h
  | num n => exact h
  | str s => exact h
  | arr es ps => exact Json.noConfusion h
  | obj ps => exact Json.noConfusion h

theorem jsTenantsOk_of_objlike {x : Json} (hobj : isObjLike x = true)
    (hnn : x ≠ .null) : jsTenantsOk x = true := by
  cases x with
  | null => exact absurd rfl hnn
  | bool b => simp [isObjLike] at hobj
  | num n => simp [isObjLike] at hobj
  | str s => simp [isObjLike] at hobj
  | arr es ps => rfl
  | obj ps => rfl

/-- Shape of every loaded store: it is an object (or an array carrying
named properties) whose `tenants` property is a truthy object or
array. -/
theorem readData_tenants_objlike (j : Option Json) :
    ∃ tmap, getField (readData j) "tenants" = some tmap ∧
      isObjLike tmap = true ∧ tmap ≠ .null ∧
      isObjLike (readData j) = true ∧ readData j ≠ .null := by
  cases j with
  | none =>
    exact ⟨.obj [], rfl, rfl, fun h => Json.noConfusion h, rfl,
      fun h => Json.noConfusion h⟩
  | some x =>
    cases x with
    | null => exact ⟨.obj [], rfl, rfl, fun h => Json.noConfusion h, rfl,
        fun h => Json.noConfusion h⟩
    | bool b =>
      refine ⟨.obj [], ?_, rfl, fun h => Json.noConfusion h, ?_, ?_⟩ <;>
        simp [readData, jsonTruthy, isObjLike, emptyStoreJson, getField, propsGet]
    | num n =>
      refine ⟨.obj [], ?_, rfl, fun h => Json.noConfusion h, ?_, ?_⟩ <;>
        simp [readData, jsonTruthy, isObjLike, emptyStoreJson, getField, propsGet]
    | str s =>
      refine ⟨.obj [], ?_, rfl, fun h => Json.noConfusion h, ?_, ?_⟩ <;>
        simp [readData, jsonTruthy, isObjLike, emptyStoreJson, getField, propsGet]
    | arr es ps =>
      by_cases hA : isArrayOpt (getField (.arr es ps) "locations") = true
      · refine ⟨.obj [("default",
          .obj [("locations", (getField (.arr es ps) "locations").getD (.arr [] [])),
                ("devices", .arr [] [])])], ?_, rfl, fun h => Json.noConfusion h, ?_, ?_⟩
        · simp only [readData]
          rw [if_neg (by simp [jsonTruthy, isObjLike]), if_pos hA]
          rfl
        · simp only [readData]
          rw [if_neg (by simp [jsonTruthy, isObjLike]), if_pos hA]
          rfl
        · simp only [readData]
          rw [if_neg (by simp [jsonTruthy, isObjLike]), if_pos hA]
          exact fun h => Json.noConfusion h
      · by_cases hT : (jsonTruthyOpt (getField (.arr es ps) "tenants") &&
            isObjLikeOpt (getField (.arr es ps) "tenants")) = true
        · cases hten : getField (.arr es ps) "tenants" with
          | none => rw [hten] at hT; simp [jsonTruthyOpt, isObjLikeOpt] at hT
          | some t =>
            rw [hten] at hT
            simp only [jsonTruthyOpt, isObjLikeOpt, Bool.and_eq_true] at hT
            have hTgoal : (jsonTruthyOpt (getField (.arr es ps) "tenants") &&
                isObjLikeOpt (getField (.arr es ps) "tenants")) = true := by
              rw [hten]
              simp [jsonTruthyOpt, isObjLikeOpt, hT.1, hT.2]
            refine ⟨t, ?_, hT.2, ?_, ?_, ?_⟩
            · simp only [readData]
              rw [if_neg (by simp [jsonTruthy, isObjLike]), if_neg hA, if_pos hTgoal]
              exact hten
            · intro hnull
              rw [hnull] at hT
              simp [jsonTruthy] at hT
            · simp only [readData]
              rw [if_neg (by simp [jsonTruthy, isObjLike]), if_neg hA, if_pos hTgoal]
              rfl
            · simp only [readData]
              rw [if_neg (by simp [jsonTruthy, isObjLike]), if_neg hA, if_pos hTgoal]
              exact fun h => Json.noConfusion h
        · refine ⟨.obj [], ?_, rfl, fun h => Json.noConfusion h, ?_, ?_⟩
          · simp only [readData]
            rw [if_neg (by simp [jsonTruthy, isObjLike]), if_neg hA, if_neg hT]
            exact getField_setField_self rfl (fun h => Json.noConfusion h)
          · simp only [readData]
            rw [if_neg (by simp [jsonTruthy, isObjLike]), if_neg hA, if_neg hT]
            rfl
          · simp only [readData]
            rw [if_neg (by simp [jsonTruthy, isObjLike]), if_neg hA, if_neg hT]
            exact fun h => Json.noConfusion h
    | obj fs =>
      by_cases hA : isArrayOpt (getField (.obj fs) "locations") = true
      · refine ⟨.obj [("default",
          .obj [("locations", (getField (.obj fs) "locations").getD (.arr [] [])),
                ("devices", .arr [] [])])], ?_, rfl, fun h => Json.noConfusion h, ?_, ?_⟩
        · simp only [readData]
          rw [if_neg (by simp [jsonTruthy, isObjLike]), if_pos hA]
          rfl
        · simp only [readData]
          rw [if_neg (by simp [jsonTruthy, isObjLike]), if_pos hA]
          rfl
        · simp only [readData]
          rw [if_neg (by simp [jsonTruthy, isObjLike]), if_pos hA]
          exact fun h => Json.noConfusion h
      · by_cases hT : (jsonTruthyOpt (getField (.obj fs) "tenants") &&
            isObjLikeOpt (getField (.obj fs) "tenants")) = true
        · cases hten : getField (.obj fs) "tenants" with
          | none => rw [hten] at hT; simp [jsonTruthyOpt, isObjLikeOpt] at hT
          | some t =>
            rw [hten] at hT
            simp only [jsonTruthyOpt, isObjLikeOpt, Bool.and_eq_true] at hT
            have hTgoal : (jsonTruthyOpt (getField (.obj fs) "tenants") &&
                isObjLikeOpt (getField (.obj fs) "tenants")) = true := by
              rw [hten]
              simp [jsonTruthyOpt, isObjLikeOpt, hT.1, hT.2]
            refine ⟨t, ?_, hT.2, ?_, ?_, ?_⟩
            · simp only [readData]
              rw [if_neg (by simp [jsonTruthy, isObjLike]), if_neg hA, if_pos hTgoal]
              exact hten
            · intro hnull
              rw [hnull] at hT
              simp [jsonTruthy] at hT
            · simp only [readData]
              rw [if_neg (by simp [jsonTruthy, isObjLike]), if_neg hA, if_pos hTgoal]
              rfl
            · simp only [readData]
              rw [if_neg (by simp [jsonTruthy, isObjLike]), if_neg hA, if_pos hTgoal]
              exact fun h => Json.noConfusion h
        · refine ⟨.obj [], ?_, rfl, fun h => Json.noConfusion h, ?_, ?_⟩
          · simp only [readData]
            rw [if_neg (by simp [jsonTruthy, isObjLike]), if_neg hA, if_neg hT]
            exact getField_setField_self rfl (fun h => Json.noConfusion h)
          · simp only [readData]
            rw [if_neg (by simp [jsonTruthy, isObjLike]), if_neg hA, if_neg hT]
            rfl
          · simp only [readData]
            rw [if_neg (by simp [jsonTruthy, isObjLike]), if_neg hA, if_neg hT]
            exact fun h => Json.noConfusion h

/-! ### Claim theorems -/

/-- C1: For every upsert-location call, if the effective id (the
payload's id, or the generated `gid` when the payload's id is falsy)
matches an existing location (first match at index `i`), the stored
record becomes the field-wise merge of the supplied fields over the
existing record with `updatedAt` set to `now`, stored in place at `i`,
and that merged record is returned with update status; if nothing
matches (in particular when the id was absent and the generated id is
fresh), a record is appended with `createdAt` defaulted to `now` when
not supplied, and returned with create status. -/
theorem upsert_location_update_or_create (locs : List Location) (p : Location)
    (uid now gid : String) :
    (∀ i, i < locs.length →
      jsEq (locs.getD i default).id (if truthy p.id then p.id else .str gid) = true →
      (∀ j, j < i →
        jsEq (locs.getD j default).id (if truthy p.id then p.id else .str gid) = false) →
      ∃ m, upsertLocation locs p uid now gid = (locs.set i m, m, .updated) ∧
        m = { mergeLocation (locs.getD i default)
                { p with id := if truthy p.id then p.id else .str gid, uid := .str uid }
              with updatedAt := .str now } ∧
        m.updatedAt = .str now ∧ m.uid = .str uid ∧
        m.petId = mergeVal (locs.getD i default).petId p.petId) ∧
    ((∀ l ∈ locs, jsEq l.id (if truthy p.id then p.id else .str gid) = false) →
      ∃ c, upsertLocation locs p uid now gid = (locs ++ [c], c, .created) ∧
        c.id = (if truthy p.id then p.id else .str gid) ∧ c.uid = .str uid ∧
        c.petId = p.petId ∧ c.label = p.label ∧ c.latitude = p.latitude ∧
        c.longitude = p.longitude ∧
        c.createdAt = (if truthy p.createdAt then p.createdAt else .str now)) := by
  constructor
  · intro i hi h1 h2
    have hf : findIdx'
        (fun l => jsEq l.id (if truthy p.id then p.id else .str gid)) locs = some i :=
      findIdx'_eq_some_of default hi h1 h2
    refine ⟨_, ?_, rfl, rfl, ?_, rfl⟩
    · simp only [upsertLocation]
      rw [hf]
    · simp [mergeLocation, mergeVal]
  · intro h
    have hf : findIdx'
        (fun l => jsEq l.id (if truthy p.id then p.id else .str gid)) locs = none :=
      findIdx'_eq_none_of h
    by_cases hca : truthy p.createdAt
    · refine ⟨{ p with id := if truthy p.id then p.id else .str gid, uid := .str uid },
        ?_, rfl, rfl, rfl, rfl, rfl, rfl, by simp [hca]⟩
      simp only [upsertLocation]
      rw [hf]
      simp [hca]
    · refine ⟨{ p with id := (if truthy p.id then p.id else .str gid)
                       uid := .str uid
                       createdAt := .str now },
        ?_, rfl, rfl, rfl, rfl, rfl, rfl, by simp [hca]⟩
      simp only [upsertLocation]
      rw [hf]
      simp [hca]

/-- Witness for C1: a concrete matching upsert really takes the update
branch, and a concrete fresh upsert takes the create branch. -/
theorem upsert_location_update_or_create_witness :
    (upsertLocation
      [⟨.str "a", .str "P", .undefined, .undefined, .undefined, .undefined, .undefined, .undefined, .undefined,
        .str "T0", .undefined, .str "u"⟩]
      ⟨.str "a", .str "Q", .undefined, .undefined, .undefined, .undefined, .undefined, .undefined, .undefined,
        .undefined, .undefined, .undefined⟩
      "u" "T2" "g").2.2 = .updated ∧
    (upsertLocation []
      ⟨.undefined, .str "P", .undefined, .undefined, .undefined, .undefined, .undefined, .undefined, .undefined,
        .undefined, .undefined, .undefined⟩
      "u" "T2" "g").2.2 = .created := by
  constructor
  · obtain ⟨m, heq, -⟩ :=
      (upsert_location_update_or_create
        [⟨.str "a", .str "P", .undefined, .undefined, .undefined, .undefined, .undefined, .undefined, .undefined,
          .str "T0", .undefined, .str "u"⟩]
        ⟨.str "a", .str "Q", .undefined, .undefined, .undefined, .undefined, .undefined, .undefined, .undefined,
          .undefined, .undefined, .undefined⟩
        "u" "T2" "g").1 0 (by decide) (by decide)
        (fun j hj => absurd hj (Nat.not_lt_zero j))
    rw [heq]
  · obtain ⟨c, heq, -⟩ :=
      (upsert_location_update_or_create []
        ⟨.undefined, .str "P", .undefined, .undefined, .undefined, .undefined, .undefined, .undefined, .undefined,
          .undefined, .undefined, .undefined⟩
        "u" "T2" "g").2 (fun l hl => absurd hl (List.not_mem_nil l))
    rw [heq]

/-- C4 counterexample: the upsert-location handler accepts a payload
with no `petId` at all; the call returns create status and stores the
record instead of failing with a validation error. -/
theorem upsert_location_no_validation_counterexample :
    (upsertLocation []
      ⟨.undefined, .undefined, .undefined, .undefined, .undefined, .undefined, .undefined, .undefined, .undefined,
        .undefined, .undefined, .undefined⟩ "u" "T1" "g1").2.2 = .created ∧
    (upsertLocation []
      ⟨.undefined, .undefined, .undefined, .undefined, .undefined, .undefined, .undefined, .undefined, .undefined,
        .undefined, .undefined, .undefined⟩ "u" "T1" "g1").1.length = 1 ∧
    ((upsertLocation []
      ⟨.undefined, .undefined, .undefined, .undefined, .undefined, .undefined, .undefined, .undefined, .undefined,
        .undefined, .undefined, .undefined⟩ "u" "T1" "g1").2.1).petId = .undefined := by
  refine ⟨rfl, rfl, rfl⟩

/-- C4 amended: the upsert-location handler performs no required-field
validation: a payload with `petId` missing (and any `latitude` /
`longitude` values) is stored as-is on the create path, so locations
stored via upsert need not have a `petId`. -/
theorem upsert_location_stores_unvalidated (locs : List Location) (p : Location)
    (uid now gid : String) (hid : p.id = .undefined)
    (hfresh : ∀ l ∈ locs, jsEq l.id (.str gid) = false) :
    ∃ c, upsertLocation locs p uid now gid = (locs ++ [c], c, .created) ∧
      c.petId = p.petId ∧ c.latitude = p.latitude ∧ c.longitude = p.longitude := by
  have hft : truthy p.id = false := by simp [hid, truthy]
  have hf : findIdx'
      (fun l => jsEq l.id (if truthy p.id then p.id else .str gid)) locs = none := by
    simp only [hft, Bool.false_eq_true, if_false]
    exact findIdx'_eq_none_of hfresh
  by_cases hca : truthy p.createdAt
  · refine ⟨{ p with id := if truthy p.id then p.id else .str gid, uid := .str uid },
      ?_, rfl, rfl, rfl⟩
    simp only [upsertLocation]
    rw [hf]
    simp [hca]
  · refine ⟨{ p with id := (if truthy p.id then p.id else .str gid)
                     uid := .str uid
                     createdAt := .str now }, ?_, rfl, rfl, rfl⟩
    simp only [upsertLocation]
    rw [hf]
    simp [hca]

/-- Witness for the amended C4: a concrete `petId`-less payload is
stored. -/
theorem upsert_location_stores_unvalidated_witness :
    ∃ c, upsertLocation []
      ⟨.undefined, .undefined, .undefined, .num 7, .str "x", .undefined, .undefined, .undefined, .undefined,
        .undefined, .undefined, .undefined⟩ "u" "T1" "g1" = ([] ++ [c], c, .created) ∧
      c.petId = JsVal.undefined ∧ c.latitude = JsVal.num 7 ∧ c.longitude = JsVal.str "x" :=
  upsert_location_stores_unvalidated []
    ⟨.undefined, .undefined, .undefined, .num 7, .str "x", .undefined, .undefined, .undefined, .undefined,
      .undefined, .undefined, .undefined⟩ "u" "T1" "g1" rfl
    (fun l hl => absurd hl (List.not_mem_nil l))

/-- C7 counterexample: with the query parameter present but empty
(`?petId=`), which is falsy in JavaScript, the handler wipes the whole
list: a location whose `petId` does not string-equal the supplied value
is removed anyway. -/
theorem delete_by_scope_counterexample :
    (deleteByScope
      [⟨.str "a", .str "P1", .undefined, .undefined, .undefined, .undefined, .undefined, .undefined, .undefined,
        .undefined, .undefined, .undefined⟩] (some "")).1 = [] ∧
    jsToString (JsVal.str "P1") ≠ "" := by
  refine ⟨rfl, by decide⟩

/-- C7 amended: when a non-empty `petId` is supplied, exactly the
locations whose `petId` string-equals it are removed (the kept list is
the order-preserving filter of the others) and the count of removed
records is returned; when the parameter is omitted or empty, the whole
tenant list is cleared and its full length returned. -/
theorem delete_by_scope_spec (locs : List Location) :
    deleteByScope locs none = ([], locs.length) ∧
    deleteByScope locs (some "") = ([], locs.length) ∧
    ∀ s : String, s ≠ "" →
      deleteByScope locs (some s) =
        (locs.filter (fun l => !(jsToString l.petId == s)),
         (locs.filter (fun l => jsToString l.petId == s)).length) ∧
      ∀ l, l ∈ (deleteByScope locs (some s)).1 ↔
        l ∈ locs ∧ ¬ jsToString l.petId = s := by
  refine ⟨by simp [deleteByScope], by simp [deleteByScope], ?_⟩
  intro s hs
  have hsplit := filter_length_split (fun l => jsToString l.petId == s) locs
  constructor
  · simp only [deleteByScope, hs, if_false]
    refine Prod.ext rfl ?_
    simp only []
    omega
  · intro l
    simp [deleteByScope, hs, List.mem_filter]

/-- Witness for the amended C7: concrete scoped delete keeps the other
pet's record and counts one removal. -/
theorem delete_by_scope_spec_witness :
    deleteByScope
      [⟨.str "a", .str "P1", .undefined, .undefined, .undefined, .undefined, .undefined, .undefined, .undefined,
        .undefined, .undefined, .undefined⟩,
       ⟨.str "b", .str "P2", .undefined, .undefined, .undefined, .undefined, .undefined, .undefined, .undefined,
        .undefined, .undefined, .undefined⟩] (some "P1") =
      ([⟨.str "b", .str "P2", .undefined, .undefined, .undefined, .undefined, .undefined, .undefined, .undefined,
        .undefined, .undefined, .undefined⟩], 1) := by
  have h := (delete_by_scope_spec
    [⟨.str "a", .str "P1", .undefined, .undefined, .undefined, .undefined, .undefined, .undefined, .undefined,
      .undefined, .undefined, .undefined⟩,
     ⟨.str "b", .str "P2", .undefined, .undefined, .undefined, .undefined, .undefined, .undefined, .undefined,
      .undefined, .undefined, .undefined⟩]).2.2 "P1" (by decide)
  exact h.1

/-- C3 counterexample.  First input: re-registering an existing device
without supplying `name` or `deviceId` wipes those stored fields (the
freshly built `dev` object carries them as `undefined` and the spread
overwrites), so unsupplied fields do not remain unchanged.  Second
input: on the create path the stored record gets `createdAt = now` but
the handler returns the record without `createdAt`, so the returned
record is not the stored one. -/
theorem register_device_counterexample :
    registerDevice [⟨.str "P", .str "C", .str "D", .str "N", .str "T0", .undefined⟩]
        ⟨.str "P2", .str "C", .undefined, .undefined⟩ "T1" =
      .ok ([⟨.str "P2", .str "C", .undefined, .undefined, .str "T0", .str "T1"⟩],
           ⟨.str "P2", .str "C", .undefined, .undefined, .str "T0", .str "T1"⟩) ∧
    (JsVal.str "N" ≠ JsVal.undefined ∧ JsVal.str "D" ≠ JsVal.undefined) ∧
    registerDevice [] ⟨.str "P2", .str "C", .undefined, .undefined⟩ "T1" =
      .ok ([⟨.str "P2", .str "C", .undefined, .undefined, .str "T1", .str "T1"⟩],
           ⟨.str "P2", .str "C", .undefined, .undefined, .undefined, .str "T1"⟩) ∧
    (⟨.str "P2", .str "C", .undefined, .undefined, .str "T1", .str "T1"⟩ : Device) ≠
      ⟨.str "P2", .str "C", .undefined, .undefined, .undefined, .str "T1"⟩ := by
  refine ⟨rfl, ⟨by decide, by decide⟩, rfl, by decide⟩

/-- C3 amended: on a match (by `code` or `deviceId`), the stored record
becomes the payload's `petId`/`code`/`deviceId`/`name` (a field not
supplied becomes absent) with `updatedAt` refreshed and only the
original `createdAt` preserved, and that merged record is returned; on a
miss a new record with `createdAt = now` is appended, but the returned
record lacks the stored `createdAt`. -/
theorem register_device_spec (devs : List Device) (p : DevicePayload) (now : String)
    (hpet : truthy p.petId = true)
    (hkey : truthy p.code = true ∨ truthy p.deviceId = true) :
    (∀ i, findIdx' (devMatch p.code p.deviceId) devs = some i →
      registerDevice devs p now =
        .ok (devs.set i ⟨p.petId, p.code, p.deviceId, p.name,
              (devs.getD i default).createdAt, .str now⟩,
             ⟨p.petId, p.code, p.deviceId, p.name,
              (devs.getD i default).createdAt, .str now⟩)) ∧
    (findIdx' (devMatch p.code p.deviceId) devs = none →
      registerDevice devs p now =
        .ok (devs ++ [⟨p.petId, p.code, p.deviceId, p.name, .str now, .str now⟩],
             ⟨p.petId, p.code, p.deviceId, p.name, .undefined, .str now⟩)) := by
  have hnv : ¬ (¬ truthy p.code = true ∧ ¬ truthy p.deviceId = true) := by
    rcases hkey with h | h
    · exact fun hc => hc.1 h
    · exact fun hc => hc.2 h
  constructor
  · intro i hf
    simp only [registerDevice]
    rw [if_neg (by simp [hpet]), if_neg hnv]
    simp only [upsertDevice]
    rw [hf]
  · intro hf
    simp only [registerDevice]
    rw [if_neg (by simp [hpet]), if_neg hnv]
    simp only [upsertDevice]
    rw [hf]

/-- Witness for the amended C3: a concrete re-registration merges over
the match, keeping only `createdAt`. -/
theorem register_device_spec_witness :
    registerDevice [⟨.str "P", .str "C", .undefined, .undefined, .str "T0", .undefined⟩]
      ⟨.str "P2", .str "C", .undefined, .str "M"⟩ "T1" =
    .ok ([⟨.str "P2", .str "C", .undefined, .str "M", .str "T0", .str "T1"⟩],
         ⟨.str "P2", .str "C", .undefined, .str "M", .str "T0", .str "T1"⟩) := by
  have h := (register_device_spec
    [⟨.str "P", .str "C", .undefined, .undefined, .str "T0", .undefined⟩]
    ⟨.str "P2", .str "C", .undefined, .str "M"⟩ "T1" (by decide)
    (Or.inl (by decide))).1 0 (by decide)
  exact h

/-- C6: after a successful `register(tenant, petId, code)` the resolver
returns that `petId` for the code; after a subsequent detach on the same
code it returns `null`; and in general the resolver returns the `petId`
of the first device in store order matching the supplied identifiers
(`undefined` when nothing matches). -/
theorem resolve_register_detach_roundtrip (devs : List Device) (pv c : String)
    (hp : pv ≠ "") (hc : c ≠ "") (now now2 : String) :
    (∃ devs1 ret, registerDevice devs ⟨.str pv, .str c, .undefined, .undefined⟩ now =
        .ok (devs1, ret) ∧
      resolvePetIdByIdentifier devs1 (.str c) .undefined = .str pv ∧
      ∃ devs2 d2, detachDevice devs1 (.str c) .undefined now2 = .ok (devs2, d2) ∧
        resolvePetIdByIdentifier devs2 (.str c) .undefined = .null) ∧
    (∀ code deviceId : JsVal,
      (∀ d, devs.find? (devMatch code deviceId) = some d →
        resolvePetIdByIdentifier devs code deviceId = d.petId) ∧
      (devs.find? (devMatch code deviceId) = none →
        resolvePetIdByIdentifier devs code deviceId = .undefined)) := by
  have htc : truthy (JsVal.str c) = true := by simp [truthy, hc]
  have hnv : ¬ (¬ truthy (JsVal.str c) = true ∧ ¬ truthy (JsVal.undefined) = true) := by
    intro hx
    exact hx.1 htc
  constructor
  · cases hfi : findIdx' (devMatch (.str c) .undefined) devs with
    | some i =>
      have hreg :
          registerDevice devs ⟨.str pv, .str c, .undefined, .undefined⟩ now =
            .ok (devs.set i ⟨.str pv, .str c, .undefined, .undefined,
                  (devs.getD i default).createdAt, .str now⟩,
                 ⟨.str pv, .str c, .undefined, .undefined,
                  (devs.getD i default).createdAt, .str now⟩) := by
        simp only [registerDevice]
        rw [if_neg (by simp [truthy, hp]), if_neg hnv]
        simp only [upsertDevice]
        rw [hfi]
      have hpm : devMatch (.str c) .undefined
          (⟨.str pv, .str c, .undefined, .undefined,
            (devs.getD i default).createdAt, .str now⟩ : Device) = true := by
        simp [devMatch, truthy, hc, jsEq]
      refine ⟨_, _, hreg, ?_, ?_⟩
      · simp only [resolvePetIdByIdentifier]
        rw [find?_set_of_findIdx' hfi hpm]
      · have hfi1 := findIdx'_set_self hfi hpm
        have hlt := findIdx'_lt_length hfi
        have hget : ((devs.set i ⟨.str pv, .str c, .undefined, .undefined,
            (devs.getD i default).createdAt, .str now⟩).getD i default) =
            ⟨.str pv, .str c, .undefined, .undefined,
              (devs.getD i default).createdAt, .str now⟩ :=
          getD_set_self default hlt
        have hdet : detachDevice
            (devs.set i ⟨.str pv, .str c, .undefined, .undefined,
              (devs.getD i default).createdAt, .str now⟩) (.str c) .undefined now2 =
            .ok ((devs.set i ⟨.str pv, .str c, .undefined, .undefined,
                  (devs.getD i default).createdAt, .str now⟩).set i
                  ⟨.null, .str c, .undefined, .undefined,
                    (devs.getD i default).createdAt, .str now2⟩,
                 ⟨.null, .str c, .undefined, .undefined,
                  (devs.getD i default).createdAt, .str now2⟩) := by
          simp only [detachDevice]
          rw [if_neg hnv, hfi1]
          simp only [hget]
        refine ⟨_, _, hdet, ?_⟩
        have hpm2 : devMatch (.str c) .undefined
            (⟨.null, .str c, .undefined, .undefined,
              (devs.getD i default).createdAt, .str now2⟩ : Device) = true := by
          simp [devMatch, truthy, hc, jsEq]
        simp only [resolvePetIdByIdentifier]
        rw [find?_set_of_findIdx' hfi1 hpm2]
    | none =>
      have hreg :
          registerDevice devs ⟨.str pv, .str c, .undefined, .undefined⟩ now =
            .ok (devs ++ [⟨.str pv, .str c, .undefined, .undefined, .str now, .str now⟩],
                 ⟨.str pv, .str c, .undefined, .undefined, .undefined, .str now⟩) := by
        simp only [registerDevice]
        rw [if_neg (by simp [truthy, hp]), if_neg hnv]
        simp only [upsertDevice]
        rw [hfi]
      have hpm : devMatch (.str c) .undefined
          (⟨.str pv, .str c, .undefined, .undefined, .str now, .str now⟩ : Device) = true := by
        simp [devMatch, truthy, hc, jsEq]
      refine ⟨_, _, hreg, ?_, ?_⟩
      · simp only [resolvePetIdByIdentifier]
        rw [find?_append_none (find?_none_of_findIdx' hfi)]
        rw [List.find?_cons_of_pos _ hpm]
      · have hfi1 := findIdx'_append_singleton hfi hpm
        have hget : ((devs ++ [(⟨.str pv, .str c, .undefined, .undefined, .str now,
            .str now⟩ : Device)]).getD devs.length default) =
            ⟨.str pv, .str c, .undefined, .undefined, .str now, .str now⟩ := by
          rw [List.getD_append_right _ _ _ _ (Nat.le_refl _)]
          simp
        have hdet : detachDevice
            (devs ++ [(⟨.str pv, .str c, .undefined, .undefined, .str now, .str now⟩ : Device)])
            (.str c) .undefined now2 =
            .ok ((devs ++ [(⟨.str pv, .str c, .undefined, .undefined, .str now,
                  .str now⟩ : Device)]).set devs.length
                  ⟨.null, .str c, .undefined, .undefined, .str now, .str now2⟩,
                 ⟨.null, .str c, .undefined, .undefined, .str now, .str now2⟩) := by
          simp only [detachDevice]
          rw [if_neg hnv, hfi1]
          simp only [hget]
        refine ⟨_, _, hdet, ?_⟩
        have hpm2 : devMatch (.str c) .undefined
            (⟨.null, .str c, .undefined, .undefined, .str now, .str now2⟩ : Device) = true := by
          simp [devMatch, truthy, hc, jsEq]
        simp only [resolvePetIdByIdentifier]
        rw [find?_set_of_findIdx' hfi1 hpm2]
  · intro code deviceId
    constructor
    · intro d hd
      simp [resolvePetIdByIdentifier, hd]
    · intro hn
      simp [resolvePetIdByIdentifier, hn]

/-- Witness for C6: the concrete round-trip on an empty registry. -/
theorem resolve_register_detach_roundtrip_witness :
    ∃ devs1 ret, registerDevice [] ⟨.str "P1", .str "C1", .undefined, .undefined⟩ "T1" =
        .ok (devs1, ret) ∧
      resolvePetIdByIdentifier devs1 (.str "C1") .undefined = .str "P1" ∧
      ∃ devs2 d2, detachDevice devs1 (.str "C1") .undefined "T2" = .ok (devs2, d2) ∧
        resolvePetIdByIdentifier devs2 (.str "C1") .undefined = .null :=
  (resolve_register_detach_roundtrip [] "P1" "C1" (by decide) (by decide) "T1" "T2").1

/-- C2: an ingest call with neither `code` nor `deviceId` supplied fails
with a validation error; one whose supplied identifiers match no
registered device, or whose first matching device has a `null` or absent
`petId`, fails with a not-found error; in both cases the tenant (its
locations and devices) is returned unchanged. -/
theorem ingest_failure_leaves_tenant (t : TenantT) (p : IngestPayload)
    (uid now gid : String) :
    (truthy p.code = false ∧ truthy p.deviceId = false →
      ingest t p uid now gid = (t, .error .validation)) ∧
    ((truthy p.code = true ∨ truthy p.deviceId = true) →
      (t.devices.find? (devMatch p.code p.deviceId) = none ∨
       (∃ d, t.devices.find? (devMatch p.code p.deviceId) = some d ∧
         (d.petId = .null ∨ d.petId = .undefined))) →
      ingest t p uid now gid = (t, .error .notFound)) := by
  constructor
  · rintro ⟨h1, h2⟩
    simp only [ingest]
    rw [if_pos ⟨by simp [h1], by simp [h2]⟩]
  · intro hk hres
    have hnv : ¬ (¬ truthy p.code = true ∧ ¬ truthy p.deviceId = true) := by
      rcases hk with h | h
      · exact fun hc => hc.1 h
      · exact fun hc => hc.2 h
    have hfalsy : ¬ truthy (resolvePetIdByIdentifier t.devices p.code p.deviceId) = true := by
      rcases hres with hn | ⟨d, hd, hpet⟩
      · simp [resolvePetIdByIdentifier, hn, truthy]
      · rcases hpet with h | h <;> simp [resolvePetIdByIdentifier, hd, h, truthy]
    simp only [ingest]
    rw [if_neg hnv, if_pos hfalsy]

/-- Witness for C2: ingesting for an unregistered device identifier on
an empty tenant fails with not-found and stores nothing. -/
theorem ingest_failure_leaves_tenant_witness :
    ingest ⟨[], []⟩
      ⟨.undefined, .str "D9", .num 1, .num 2, .undefined, .undefined, .undefined, .undefined⟩
      "u" "T" "g" = (⟨[], []⟩, .error .notFound) :=
  (ingest_failure_leaves_tenant ⟨[], []⟩
    ⟨.undefined, .str "D9", .num 1, .num 2, .undefined, .undefined, .undefined, .undefined⟩
    "u" "T" "g").2 (Or.inr (by decide)) (Or.inl (by decide))

/-- C8: every successful ingest appends exactly one new location (no
existing record is modified, devices untouched) whose `id` is the
generated one, `origin` is `"device"`, `uid` the caller tenant,
`createdBy` the supplied identifier (`deviceId` preferred over `code`),
`latitude`/`longitude`/`accuracy`/`speed` numerically coerced, and
`createdAt` derived from the supplied timestamp as epoch milliseconds
when given, else `now`. -/
theorem ingest_success_appends (t : TenantT) (p : IngestPayload)
    (uid now gid : String) (t' : TenantT) (loc : Location)
    (h : ingest t p uid now gid = (t', .ok loc)) :
    t'.locations = t.locations ++ [loc] ∧ t'.devices = t.devices ∧
    loc.id = .str gid ∧ loc.origin = .str "device" ∧ loc.uid = .str uid ∧
    (truthy p.deviceId = true → loc.createdBy = p.deviceId) ∧
    (truthy p.deviceId = false → truthy p.code = true → loc.createdBy = p.code) ∧
    loc.latitude = jsNumber p.lat ∧ loc.longitude = jsNumber p.lng ∧
    (p.accuracy ≠ .null ∧ p.accuracy ≠ .undefined → loc.accuracy = jsNumber p.accuracy) ∧
    (p.speed ≠ .null ∧ p.speed ≠ .undefined → loc.speed = jsNumber p.speed) ∧
    (truthy p.timestamp = true →
      ∃ n, jsNumber p.timestamp = .num n ∧ loc.createdAt = .str (epochToIso n)) ∧
    (truthy p.timestamp = false → loc.createdAt = .str now) := by
  by_cases h1 : ¬ truthy p.code = true ∧ ¬ truthy p.deviceId = true
  · exfalso
    simp only [ingest] at h
    rw [if_pos h1] at h
    simp at h
  · by_cases h2 : ¬ truthy (resolvePetIdByIdentifier t.devices p.code p.deviceId) = true
    · exfalso
      simp only [ingest] at h
      rw [if_neg h1, if_pos h2] at h
      simp at h
    · cases h3 : ingestCreatedAt p.timestamp now with
      | none =>
        exfalso
        simp only [ingest] at h
        rw [if_neg h1, if_neg h2, h3] at h
        simp at h
      | some ca =>
        simp only [ingest] at h
        rw [if_neg h1, if_neg h2, h3] at h
        simp only at h
        obtain ⟨ht', hok⟩ := Prod.ext_iff.mp h
        injection hok with hloc
        subst ht'
        subst hloc
        refine ⟨rfl, rfl, rfl, rfl, rfl, ?_, ?_, rfl, rfl, ?_, ?_, ?_, ?_⟩
        · intro hd
          simp [jsOr, hd]
        · intro hd hc
          simp [jsOr, hd, hc]
        · intro ha
          simp only []
          rw [if_pos ha]
        · intro hs
          simp only []
          rw [if_pos hs]
        · intro hts
          simp only [ingestCreatedAt, hts, if_true] at h3
          cases hn : jsNumber p.timestamp with
          | num n =>
            rw [hn] at h3
            simp only [] at h3
            injection h3 with hca
            exact ⟨n, rfl, by rw [hca]⟩
          | undefined => rw [hn] at h3; simp at h3
          | null => rw [hn] at h3; simp at h3
          | bool b => rw [hn] at h3; simp at h3
          | str s => rw [hn] at h3; simp at h3
          | nan => rw [hn] at h3; simp at h3
        · intro hts
          simp only [ingestCreatedAt, hts] at h3
          simp only [Bool.false_eq_true, if_false] at h3
          injection h3 with hca
          rw [hca]

/-- Witness for C8: a concrete successful ingest against a registered
code appends the fully coerced record. -/
theorem ingest_success_appends_witness :
    ([(⟨.str "g", .str "P1", .str "device", .num 1, .num 2, .undefined, .undefined,
        .str "device", .str "C1", .str "T", .undefined, .str "u"⟩ : Location)] :
      List Location) = [] ++
      [⟨.str "g", .str "P1", .str "device", .num 1, .num 2, .undefined, .undefined,
        .str "device", .str "C1", .str "T", .undefined, .str "u"⟩] ∧
    (⟨.str "g", .str "P1", .str "device", .num 1, .num 2, .undefined, .undefined,
      .str "device", .str "C1", .str "T", .undefined, .str "u"⟩ : Location).createdBy =
      .str "C1" := by
  have h := ingest_success_appends
    ⟨[], [⟨.str "P1", .str "C1", .undefined, .undefined, .undefined, .undefined⟩]⟩
    ⟨.str "C1", .undefined, .num 1, .num 2, .undefined, .undefined, .undefined, .undefined⟩
    "u" "T" "g"
    ⟨[⟨.str "g", .str "P1", .str "device", .num 1, .num 2, .undefined, .undefined,
        .str "device", .str "C1", .str "T", .undefined, .str "u"⟩],
     [⟨.str "P1", .str "C1", .undefined, .undefined, .undefined, .undefined⟩]⟩
    ⟨.str "g", .str "P1", .str "device", .num 1, .num 2, .undefined, .undefined,
      .str "device", .str "C1", .str "T", .undefined, .str "u"⟩ rfl
  exact ⟨h.1, h.2.2.2.2.2.2.1 (by decide) (by decide)⟩

/-- C9: an operation executed under tenant `uid` — any tenant-local
mutation run through the handlers' resolve/mutate/write-back shape —
leaves every other tenant's entry in the store untouched, and the upsert
handler force-assigns the stored and returned location's `uid` from the
resolved caller tenant, never from the payload. -/
theorem tenant_isolation {α : Type} (s : Store) (uid b : String)
    (f : TenantT → TenantT × α) (hb : b ≠ uid) :
    storeGet (applyTenantOp s uid f).1 b = storeGet s b ∧
    (∀ locs payload now gid,
      ((upsertLocation locs payload uid now gid).2.1).uid = .str uid ∧
      ∀ l ∈ (upsertLocation locs payload uid now gid).1,
        l ∈ locs ∨ l.uid = .str uid) := by
  constructor
  · simp only [applyTenantOp, getTenantTyped]
    cases hget : storeGet s uid with
    | some t =>
      simp only []
      exact storeGet_storeSet_ne hb
    | none =>
      simp only []
      rw [storeGet_storeSet_ne hb, storeGet_storeSet_ne hb]
  · intro locs payload now gid
    constructor
    · simp only [upsertLocation]
      cases hf : findIdx'
          (fun l => jsEq l.id (if truthy payload.id then payload.id else .str gid))
          locs with
      | some i =>
        simp only []
        simp [mergeLocation, mergeVal]
      | none =>
        simp only []
        by_cases hca : truthy payload.createdAt
        · simp [hca]
        · simp [hca]
    · intro l hl
      simp only [upsertLocation] at hl
      cases hf : findIdx'
          (fun l => jsEq l.id (if truthy payload.id then payload.id else .str gid))
          locs with
      | some i =>
        rw [hf] at hl
        simp only [] at hl
        rcases mem_of_mem_set hl with h | rfl
        · exact Or.inl h
        · right
          simp [mergeLocation, mergeVal]
      | none =>
        rw [hf] at hl
        simp only [] at hl
        rcases List.mem_append.mp hl with h | h
        · exact Or.inl h
        · right
          rw [List.mem_singleton.mp h]
          by_cases hca : truthy payload.createdAt
          · simp [hca]
          · simp [hca]

/-- Witness for C9: a concrete operation under tenant `"A"` leaves
tenant `"B"`'s lookup unchanged, and a payload carrying a foreign `uid`
still gets the caller's. -/
theorem tenant_isolation_witness :
    storeGet (applyTenantOp [("A", (⟨[], []⟩ : TenantT))] "A"
      (fun t => (t, (0 : Nat)))).1 "B" =
      storeGet [("A", (⟨[], []⟩ : TenantT))] "B" ∧
    ((upsertLocation []
      (⟨.undefined, .undefined, .undefined, .undefined, .undefined, .undefined, .undefined, .undefined, .undefined,
        .undefined, .undefined, .str "EVIL"⟩ : Location) "A" "T" "g").2.1).uid =
      .str "A" := by
  have h := tenant_isolation [("A", (⟨[], []⟩ : TenantT))] "A" "B"
    (fun t => (t, (0 : Nat))) (by decide)
  exact ⟨h.1, (h.2 []
    ⟨.undefined, .undefined, .undefined, .undefined, .undefined, .undefined, .undefined, .undefined, .undefined,
      .undefined, .undefined, .str "EVIL"⟩ "T" "g").1⟩

/-- C5: a legacy-shaped durable file — an object carrying a `locations`
array — loads as a store with exactly the single tenant `"default"`
whose `locations` are that array unchanged and whose `devices` are
empty.  (`readData` is read-only: the migrated shape is only persisted
by a later `writeData`.) -/
theorem legacy_migration (fs : List (String × Json)) (es : List Json)
    (ps : List (String × Json))
    (h : propsGet fs "locations" = some (.arr es ps)) :
    readData (some (.obj fs)) =
      .obj [("tenants", .obj [("default",
        .obj [("locations", .arr es ps), ("devices", .arr [] [])])])] := by
  simp only [readData]
  rw [if_neg (by simp [jsonTruthy, isObjLike]),
    if_pos (by simp [getField, h, isArrayOpt])]
  simp [getField, h]

/-- Witness for C5: the concrete legacy file from the spec example. -/
theorem legacy_migration_witness :
    readData (some (.obj [("locations", .arr [.obj [("id", .str "a")]] [])])) =
      .obj [("tenants", .obj [("default",
        .obj [("locations", .arr [.obj [("id", .str "a")]] []),
              ("devices", .arr [] [])])])] :=
  legacy_migration [("locations", .arr [.obj [("id", .str "a")]] [])]
    [.obj [("id", .str "a")]] [] rfl

/-- C10 counterexample: a loaded store whose tenant entry is the truthy
primitive `5` is handed back by `getTenant` unchanged — the writes meant
to replace its non-array `locations`/`devices` are silently ignored on a
primitive in sloppy mode — so the entry's `locations` is still not an
array and the operation then fails on it. -/
theorem get_tenant_counterexample :
    getTenantJson (readData (some (.obj [("tenants", .obj [("u", .num 5)])]))) "u" =
      some (.obj [("tenants", .obj [("u", .num 5)])], .num 5) ∧
    isArrayOpt (getField (.num 5) "locations") = false := by
  exact ⟨rfl, rfl⟩

/-- C10 amended: on every loaded store, `getTenant` succeeds and yields
a tenant entry that is recorded in the returned store under the tenant
key; a missing or falsy entry is created as the fresh
`\x7b locations: [], devices: [] \x7d`; and whenever the resulting entry
is object- or array-shaped its `locations` and `devices` are arrays
(non-array fields having been replaced by empty arrays).  A truthy
primitive entry, however, is passed through unchanged (the counterexample
shows its `locations` stays a non-array, so operations fail on it). -/
theorem get_tenant_normalizes (j : Option Json) (uid : String) :
    ∃ d' entry, getTenantJson (readData j) uid = some (d', entry) ∧
      (isObjLike entry = true → entry ≠ .null →
        isArrayOpt (getField entry "locations") = true ∧
        isArrayOpt (getField entry "devices") = true) ∧
      (∃ tmap2, getField d' "tenants" = some tmap2 ∧
        getField tmap2 uid = some entry) ∧
      (∀ tmap, getField (readData j) "tenants" = some tmap →
        jsonTruthyOpt (getField tmap uid) = false → entry = freshTenantJson) := by
  obtain ⟨tmap, hten, hobj, hnn, hdobj, hdnn⟩ := readData_tenants_objlike j
  have hOk : jsTenantsOk tmap = true := jsTenantsOk_of_objlike hobj hnn
  by_cases hT : jsonTruthyOpt (getField tmap uid) = true
  · cases hE : getField tmap uid with
    | none =>
      rw [hE] at hT
      simp [jsonTruthyOpt] at hT
    | some e0 =>
      have hfreshcon : ∀ tmap' : Json,
          getField (readData j) "tenants" = some tmap' →
          jsonTruthyOpt (getField tmap' uid) = false → False := by
        intro tmap' hten' hfal
        rw [hten] at hten'
        injection hten' with he
        subst he
        rw [hfal] at hT
        exact Bool.noConfusion hT
      by_cases hL : isArrayOpt (getField e0 "locations") = true
      · by_cases hD : isArrayOpt (getField e0 "devices") = true
        · have heq : getTenantJson (readData j) uid =
              some (setField (readData j) "tenants" (setField tmap uid e0), e0) := by
            simp only [getTenantJson, hten]
            rw [if_pos hOk]
            rw [if_pos hT, hE]
            simp only []
            rw [if_pos hL, if_pos hD]
          refine ⟨_, _, heq, ?_, ?_, ?_⟩
          · intro _ _
            exact ⟨hL, hD⟩
          · exact ⟨_, getField_setField_self hdobj hdnn,
              getField_setField_self hobj hnn⟩
          · intro tmap' hten' hfal
            exact (hfreshcon tmap' hten' hfal).elim
        · have heq : getTenantJson (readData j) uid =
              some (setField (readData j) "tenants"
                (setField tmap uid (setField e0 "devices" (.arr [] []))),
                setField e0 "devices" (.arr [] [])) := by
            simp only [getTenantJson, hten]
            rw [if_pos hOk]
            rw [if_pos hT, hE]
            simp only []
            rw [if_pos hL, if_neg hD]
          refine ⟨_, _, heq, ?_, ?_, ?_⟩
          · intro hio hnn0
            have hobj0 : isObjLike e0 = true := by
              rw [isObjLike_setField] at hio
              exact hio
            have hnn1 : e0 ≠ .null := fun h0 => hnn0 (by rw [h0]; rfl)
            constructor
            · rw [getField_setField_ne (by decide)]
              exact hL
            · rw [getField_setField_self hobj0 hnn1]
              rfl
          · exact ⟨_, getField_setField_self hdobj hdnn,
              getField_setField_self hobj hnn⟩
          · intro tmap' hten' hfal
            exact (hfreshcon tmap' hten' hfal).elim
      · by_cases hD : isArrayOpt
            (getField (setField e0 "locations" (.arr [] [])) "devices") = true
        · have heq : getTenantJson (readData j) uid =
              some (setField (readData j) "tenants"
                (setField tmap uid (setField e0 "locations" (.arr [] []))),
                setField e0 "locations" (.arr [] [])) := by
            simp only [getTenantJson, hten]
            rw [if_pos hOk]
            rw [if_pos hT, hE]
            simp only []
            rw [if_neg hL, if_pos hD]
          refine ⟨_, _, heq, ?_, ?_, ?_⟩
          · intro hio hnn0
            have hobj0 : isObjLike e0 = true := by
              rw [isObjLike_setField] at hio
              exact hio
            have hnn1 : e0 ≠ .null := fun h0 => hnn0 (by rw [h0]; rfl)
            constructor
            · rw [getField_setField_self hobj0 hnn1]
              rfl
            · exact hD
          · exact ⟨_, getField_setField_self hdobj hdnn,
              getField_setField_self hobj hnn⟩
          · intro tmap' hten' hfal
            exact (hfreshcon tmap' hten' hfal).elim
        · have heq : getTenantJson (readData j) uid =
              some (setField (readData j) "tenants"
                (setField tmap uid (setField (setField e0 "locations" (.arr [] []))
                  "devices" (.arr [] []))),
                setField (setField e0 "locations" (.arr [] []))
                  "devices" (.arr [] [])) := by
            simp only [getTenantJson, hten]
            rw [if_pos hOk]
            rw [if_pos hT, hE]
            simp only []
            rw [if_neg hL, if_neg hD]
          refine ⟨_, _, heq, ?_, ?_, ?_⟩
          · intro hio hnn0
            have hobj0 : isObjLike e0 = true := by
              rw [isObjLike_setField, isObjLike_setField] at hio
              exact hio
            have hnn1 : e0 ≠ .null := fun h0 => hnn0 (by rw [h0]; rfl)
            have hobj1 : isObjLike (setField e0 "locations" (.arr [] [])) = true := by
              rw [isObjLike_setField]
              exact hobj0
            have hnn2 : setField e0 "locations" (.arr [] []) ≠ .null :=
              fun h0 => hnn1 (eq_null_of_setField_eq_null h0)
            constructor
            · rw [getField_setField_ne (by decide),
                getField_setField_self hobj0 hnn1]
              rfl
            · rw [getField_setField_self hobj1 hnn2]
              rfl
          · exact ⟨_, getField_setField_self hdobj hdnn,
              getField_setField_self hobj hnn⟩
          · intro tmap' hten' hfal
            exact (hfreshcon tmap' hten' hfal).elim
  · have heq : getTenantJson (readData j) uid =
        some (setField (readData j) "tenants"
          (setField (setField tmap uid freshTenantJson) uid freshTenantJson),
          freshTenantJson) := by
      simp only [getTenantJson, hten]
      rw [if_pos hOk]
      rw [if_neg hT, getField_setField_self hobj hnn]
      simp only []
      rw [if_pos (show isArrayOpt (getField freshTenantJson "locations") = true
            by decide),
        if_pos (show isArrayOpt (getField freshTenantJson "devices") = true
            by decide)]
    refine ⟨_, _, heq, ?_, ?_, ?_⟩
    · intro h1 h2
      exact ⟨rfl, rfl⟩
    · have hobj1 : isObjLike (setField tmap uid freshTenantJson) = true := by
        rw [isObjLike_setField]
        exact hobj
      have hnn1 : setField tmap uid freshTenantJson ≠ .null :=
        fun h0 => hnn (eq_null_of_setField_eq_null h0)
      exact ⟨_, getField_setField_self hdobj hdnn,
        getField_setField_self hobj1 hnn1⟩
    · intro tmap' hten' hfal
      rfl


/-- Witness for the amended C10: the normalization at a concrete loaded
store with no entry for the tenant. -/
theorem get_tenant_normalizes_witness :
    ∃ d' entry,
      getTenantJson (readData (some (.obj [("tenants", .obj [])]))) "u" =
        some (d', entry) ∧
      (isObjLike entry = true → entry ≠ .null →
        isArrayOpt (getField entry "locations") = true ∧
        isArrayOpt (getField entry "devices") = true) ∧
      (∃ tmap2, getField d' "tenants" = some tmap2 ∧
        getField tmap2 "u" = some entry) ∧
      (∀ tmap, getField (readData (some (.obj [("tenants", .obj [])]))) "tenants" =
          some tmap →
        jsonTruthyOpt (getField tmap "u") = false → entry = freshTenantJson) :=
  get_tenant_normalizes (some (.obj [("tenants", .obj [])])) "u"

end PetOne
